import Mathlib

/-!
Verification development for the String Analyzer Service.

The repository contains two parallel implementations:
* `main.py` — the live FastAPI module, with its own analyzer
  (`is_palindrome` stripping spaces only), query parser and filter engine;
* `utils/analyzer.py`, `services/nlp_parser.py`, `services/storage.py` —
  a second implementation whose palindrome normalization strips every
  non-alphanumeric character.

Strings are embedded as `List Char`.  Python's `str.lower` and
`str.isalnum` are embedded by their ASCII behaviour (`Char.toLower`,
`Char.isAlpha`/`Char.isDigit`), which agrees with Python on every input
appearing in this development.  The external library call
`hashlib.sha256(...).hexdigest()` is not repository code; it is embedded
as an explicit function parameter `hash : List Char → String`, carrying
exactly the property the code relies on: it is a deterministic function
of the input string.
-/

/-- Python `str.isalnum` restricted to ASCII: letters or digits. -/
def pyIsAlnum (c : Char) : Bool := c.isAlpha || c.isDigit

/-- Python whitespace for `str.split()` / regex `\s`, ASCII fragment:
space, tab, newline, carriage return, vertical tab, form feed. -/
def pyIsSpace (c : Char) : Bool :=
  c == ' ' || c == '\t' || c == '\n' || c == '\r' ||
  c == Char.ofNat 11 || c == Char.ofNat 12

/-- Python `str.lower`, ASCII fragment. -/
def toLowerStr (s : List Char) : List Char := s.map Char.toLower

/-- `utils/analyzer.py` line 8: `"".join(filter(str.isalnum, s)).lower()`. -/
def normalized_s (s : List Char) : List Char :=
  (s.filter pyIsAlnum).map Char.toLower

/-- `main.py` lines 60–63: `cleaned = text.lower().replace(" ", "")`
followed by `cleaned == cleaned[::-1]` (strips spaces only). -/
def is_palindrome_main (s : List Char) : Bool :=
  let cleaned := (s.map Char.toLower).filter (fun c => c != ' ')
  cleaned == cleaned.reverse

/-- Auxiliary for `count_words`: `inWord` records whether the previous
character was a non-space (so we are inside a word run). -/
def countWordsAux : Bool → List Char → Nat
  | _, [] => 0
  | inWord, c :: rest =>
    if pyIsSpace c then countWordsAux false rest
    else (if inWord then 0 else 1) + countWordsAux true rest

/-- Python `len(s.split())`: number of maximal non-whitespace runs. -/
def count_words (s : List Char) : Nat := countWordsAux false s

/-- One step of the frequency-map construction: bump the count of `c`,
appending a fresh key at the end (Python dict insertion order). -/
def freqInsert : List (Char × Nat) → Char → List (Char × Nat)
  | [], c => [(c, 1)]
  | (k, n) :: rest, c =>
    if k = c then (k, n + 1) :: rest else (k, n) :: freqInsert rest c

/-- `utils/analyzer.py` lines 13–19 and `main.py` lines 76–81: one pass
over the string building a character → occurrence-count map. -/
def character_frequency (s : List Char) : List (Char × Nat) :=
  s.foldl freqInsert []

/-- Python `len(set(s))`: number of distinct characters. -/
def count_unique_characters (s : List Char) : Nat := s.eraseDups.length

/-- The `StringProperties` record (`models.py` lines 7–19,
`main.py` lines 26–32). -/
structure StringProperties where
  length : Nat
  is_palindrome : Bool
  unique_characters : Nat
  word_count : Nat
  sha256_hash : String
  character_frequencies : List (Char × Nat)
deriving DecidableEq, Repr

/-- `utils/analyzer.py` `analyze_string` — the canonical Analyzer: its
palindrome check removes every character that is not a letter or digit
and case-folds before comparing with the reverse. -/
def analyze_string (hash : List Char → String) (s : List Char) : StringProperties :=
  { length := s.length
    is_palindrome := normalized_s s == (normalized_s s).reverse
    unique_characters := count_unique_characters s
    word_count := count_words s
    sha256_hash := hash s
    character_frequencies := character_frequency s }

/-- The full record returned by `main.py` `analyze_string` (lines 84–102):
id, value, properties, and a `created_at` timestamp read from the clock.
The clock reading `datetime.utcnow().isoformat() + "Z"` is an input of the
embedding (`now`). -/
structure FullRecord where
  id : String
  value : List Char
  properties : StringProperties
  created_at : String
deriving DecidableEq, Repr

/-- `main.py` lines 84–102: analyze and wrap into the stored record.  The
properties use `main.py`'s own `is_palindrome` (spaces-only stripping). -/
def analyze_string_main (hash : List Char → String) (now : String)
    (s : List Char) : FullRecord :=
  { id := hash s
    value := s
    properties :=
      { length := s.length
        is_palindrome := is_palindrome_main s
        unique_characters := count_unique_characters s
        word_count := count_words s
        sha256_hash := hash s
        character_frequencies := character_frequency s }
    created_at := now }

/-! ### Query interpreter (`main.py` `parse_natural_language_query`, lines 105–145)

Python's `re.search` over the patterns used here is embedded by a
left-to-right scan.  For every pattern in the source the greedy quantifier
is forced (each `\d+`/`\s+` is followed by an atom that cannot match a
digit/space, so backtracking inside a quantifier can never succeed), hence
maximal-munch scanning is exact; the optional groups of the `contain...`
pattern are tried in the regex engine's order (alternatives first, then
the empty branch). -/

/-- `startsWithList n h` is true when `n` is an initial segment of `h`. -/
def startsWithList : List Char → List Char → Bool
  | [], _ => true
  | _ :: _, [] => false
  | n :: ns, c :: cs => n == c && startsWithList ns cs

/-- Python substring containment `needle in haystack`. -/
def subOf (needle : List Char) : List Char → Bool
  | [] => needle.isEmpty
  | c :: rest => startsWithList needle (c :: rest) || subOf needle rest

/-- Strip a literal from the front of the input; `none` when it does not
match. -/
def stripLead : List Char → List Char → Option (List Char)
  | [], s => some s
  | _ :: _, [] => none
  | k :: ks, c :: cs => if k == c then stripLead ks cs else none

/-- Leading maximal run of ASCII digits (`\d+`, greedy). -/
def takeDigits : List Char → List Char
  | [] => []
  | c :: rest => if c.isDigit then c :: takeDigits rest else []

/-- Decimal value of a digit string, as Python `int` parses it. -/
def digitsToNat (ds : List Char) : Nat :=
  ds.foldl (fun acc c => acc * 10 + (c.toNat - 48)) 0

/-- `re.search(key ++ r"(\d+)", s)`: leftmost position where the literal
`key` is followed by at least one digit; the captured group is the maximal
digit run there. -/
def searchKeyNum (key : List Char) : List Char → Option Nat
  | [] => none
  | c :: rest =>
    match stripLead key (c :: rest) with
    | some tail =>
      let ds := takeDigits tail
      if ds.isEmpty then searchKeyNum key rest else some (digitsToNat ds)
    | none => searchKeyNum key rest

/-- `re.search(r"(\d+)\s+word", s)`: leftmost position with a digit run,
then at least one whitespace, then the literal `word`. -/
def searchNumWord : List Char → Option Nat
  | [] => none
  | c :: rest =>
    let ds := takeDigits (c :: rest)
    if ds.isEmpty then searchNumWord rest
    else
      let afterD := (c :: rest).drop ds.length
      let ws := afterD.takeWhile pyIsSpace
      if ws.isEmpty then searchNumWord rest
      else if startsWithList "word".data (afterD.drop ws.length) then
        some (digitsToNat ds)
      else searchNumWord rest

/-- `\s+` step: within the `contain` pattern every `\s+` is followed by a
non-space atom, so only the maximal nonempty space run can succeed. -/
def wsStep (s : List Char) : List (List Char) :=
  let ws := s.takeWhile pyIsSpace
  if ws.isEmpty then [] else [s.drop ws.length]

/-- `(?:ing|s)?` after the literal `contain`: the engine tries `ing`, then
`s`, then the empty branch. -/
def optIngS (s : List Char) : List (List Char) :=
  (match stripLead "ing".data s with
   | some r => [r]
   | none => []) ++
  (match stripLead "s".data s with
   | some r => [r]
   | none => []) ++ [s]

/-- `(?:lit\s+)?`: try the literal followed by whitespace, then the empty
branch. -/
def optLitWs (lit : List Char) (s : List Char) : List (List Char) :=
  (match stripLead lit s with
   | some r => wsStep r
   | none => []) ++ [s]

/-- Match the tail of `contain(?:ing|s)?\s+(?:the\s+)?(?:letter\s+)?([a-z])`
right after the literal `contain`, returning the captured letter. -/
def tryContainTail (s : List Char) : Option Char :=
  (optIngS s).findSome? fun s1 =>
    (wsStep s1).findSome? fun s2 =>
      (optLitWs "the".data s2).findSome? fun s3 =>
        (optLitWs "letter".data s3).findSome? fun s4 =>
          match s4 with
          | c :: _ => if 'a' ≤ c && c ≤ 'z' then some c else none
          | [] => none

/-- `re.search(r"contain(?:ing|s)?\s+(?:the\s+)?(?:letter\s+)?([a-z])", s)`:
leftmost occurrence of the literal `contain` whose tail matches. -/
def searchContains : List Char → Option Char
  | [] => none
  | c :: rest =>
    match stripLead "contain".data (c :: rest) with
    | some tail =>
      match tryContainTail tail with
      | some ch => some ch
      | none => searchContains rest
    | none => searchContains rest

/-- The `FilterSpec` of §3 of the spec: the `filters` dict of `main.py`.
Length bounds are integers: the parser can produce `N - 1 = -1`. -/
structure FilterSpec where
  is_palindrome : Option Bool := none
  word_count : Option Nat := none
  min_length : Option Int := none
  max_length : Option Int := none
  contains_character : Option Char := none
deriving DecidableEq, Repr

/-- `main.py` lines 111–112: `"palindrom" in query_lower`. -/
def stagePal (ql : List Char) (f : FilterSpec) : FilterSpec :=
  if subOf "palindrom".data ql then { f with is_palindrome := some true } else f

/-- `main.py` lines 115–123: the word-count `if`/`elif`/`else` chain. -/
def stageWC (ql : List Char) (f : FilterSpec) : FilterSpec :=
  if subOf "single word".data ql then { f with word_count := some 1 }
  else if subOf "two word".data ql || subOf "2 word".data ql then
    { f with word_count := some 2 }
  else
    match searchNumWord ql with
    | some n => { f with word_count := some n }
    | none => f

/-- `main.py` lines 126–128: `longer than (\d+)` sets `min_length = N + 1`. -/
def stageLonger (ql : List Char) (f : FilterSpec) : FilterSpec :=
  match searchKeyNum "longer than ".data ql with
  | some n => { f with min_length := some ((n : Int) + 1) }
  | none => f

/-- `main.py` lines 130–132: `shorter than (\d+)` sets `max_length = N - 1`. -/
def stageShorter (ql : List Char) (f : FilterSpec) : FilterSpec :=
  match searchKeyNum "shorter than ".data ql with
  | some n => { f with max_length := some ((n : Int) - 1) }
  | none => f

/-- `main.py` lines 135–139: the `contain...` pattern. -/
def stageContains (ql : List Char) (f : FilterSpec) : FilterSpec :=
  match searchContains ql with
  | some c => { f with contains_character := some c }
  | none => f

/-- `main.py` lines 142–143: `"first vowel" in query_lower` overwrites
`contains_character` with `'a'`; this runs after `stageContains`. -/
def stageVowel (ql : List Char) (f : FilterSpec) : FilterSpec :=
  if subOf "first vowel".data ql then { f with contains_character := some 'a' } else f

/-- `main.py` `parse_natural_language_query` (lines 105–145): lowercase the
query, then apply the rule stages in program order. -/
def parse_natural_language_query (q : List Char) : FilterSpec :=
  let ql := toLowerStr q
  stageVowel ql (stageContains ql (stageShorter ql (stageLonger ql
    (stageWC ql (stagePal ql {})))))

/-! ### Filter engine (`main.py` `apply_filters`, lines 148–176)

The Python loop walks the `filters` dict in insertion order and narrows
the list with one comprehension per present key.  Each key is applied at
most once, so the sequential narrowing below (in the key order of
`get_all_strings`) computes the same set regardless of dict order; the
conjunction theorem below makes that explicit. -/

/-- Code-side filter engine: one list comprehension per present key. -/
def apply_filters (data : List FullRecord) (f : FilterSpec) : List FullRecord :=
  let d1 := match f.is_palindrome with
    | some b => data.filter (fun r => r.properties.is_palindrome == b)
    | none => data
  let d2 := match f.min_length with
    | some n => d1.filter (fun r => decide ((r.properties.length : Int) ≥ n))
    | none => d1
  let d3 := match f.max_length with
    | some n => d2.filter (fun r => decide ((r.properties.length : Int) ≤ n))
    | none => d2
  let d4 := match f.word_count with
    | some n => d3.filter (fun r => r.properties.word_count == n)
    | none => d3
  match f.contains_character with
  | some c => d4.filter (fun r => subOf [c] r.value)
  | none => d4

/-- Spec-side predicate (§4.3): the conjunction of every set field's
predicate, an unset field imposing no constraint.  Stated from the spec's
words, to be compared with `apply_filters`. -/
def matchesSpec (f : FilterSpec) (r : FullRecord) : Bool :=
  (match f.is_palindrome with
   | some b => r.properties.is_palindrome == b
   | none => true) &&
  ((match f.min_length with
   | some n => decide ((r.properties.length : Int) ≥ n)
   | none => true) &&
  ((match f.max_length with
   | some n => decide ((r.properties.length : Int) ≤ n)
   | none => true) &&
  ((match f.word_count with
   | some n => r.properties.word_count == n
   | none => true) &&
  (match f.contains_character with
   | some c => subOf [c] r.value
   | none => true))))

/-! ### Store (`main.py` lines 12, 182–307; `services/storage.py`)

The in-memory dict `string_storage: Dict[str, dict]` is embedded as an
association list in insertion order (Python dicts preserve insertion
order); its keys are unique because every insertion is guarded by a
membership check.  `del d[k]` removes the key, embedded as dropping every
pair with that key (identical on stores with unique keys). -/

/-- `main.py` line 12: the in-memory store, keyed by the SHA-256 id. -/
abbrev Store : Type := List (String × FullRecord)

/-- The error kinds of the store contract (§7): HTTP 409 / 404 in code. -/
inductive StoreError where
  | alreadyExists
  | notFound
deriving DecidableEq, Repr

/-- Python `del string_storage[k]`. -/
def eraseKey (st : Store) (i : String) : Store :=
  List.filter (fun p => p.1 != i) st

/-- `main.py` `create_string` (lines 183–203): hash the value; if the id
is present answer 409 (`AlreadyExists`) and leave the store alone;
otherwise analyze, insert and return the record.  The pair carries the
result and the store after the call. -/
def create_string (hash : List Char → String) (now : String) (st : Store)
    (v : List Char) : Except StoreError FullRecord × Store :=
  let h := hash v
  if (List.lookup h st).isSome then (.error .alreadyExists, st)
  else
    let r0 := analyze_string_main hash now v
    (.ok r0, st ++ [(h, r0)])

/-- `services/storage.py` `get_string_by_id` / `main.py` `get_string`
after hashing: look the id up, 404 (`NotFound`) when absent. -/
def get_by_id (st : Store) (i : String) : Except StoreError FullRecord :=
  match List.lookup i st with
  | some r => .ok r
  | none => .error .notFound

/-- `main.py` `delete_string` (lines 296–307) / `storage.py`
`delete_string_by_id`: delete when present, 404 (`NotFound`) otherwise. -/
def delete_by_id (st : Store) (i : String) : Except StoreError Unit × Store :=
  if (List.lookup i st).isSome then (.ok (), eraseKey st i)
  else (.error .notFound, st)

/-! ### Helper lemmas -/

theorem subOf_singleton (c : Char) (v : List Char) :
    subOf [c] v = true ↔ c ∈ v := by
  induction v with
  | nil => simp [subOf]
  | cons d t ih => simp [subOf, startsWithList, ih, beq_iff_eq]

theorem lookup_freqInsert_isSome (c d : Char) (m : List (Char × Nat)) :
    (List.lookup c (freqInsert m d)).isSome =
      ((List.lookup c m).isSome || c == d) := by
  induction m with
  | nil =>
    by_cases h : c = d
    · simp [freqInsert, List.lookup, h]
    · have hb : (c == d) = false := beq_eq_false_iff_ne.mpr h
      simp [freqInsert, List.lookup, hb]
  | cons p t ih =>
    obtain ⟨k, n⟩ := p
    by_cases hkd : k = d
    · subst hkd
      by_cases hck : c = k
      · simp [freqInsert, List.lookup, hck]
      · have hb : (c == k) = false := beq_eq_false_iff_ne.mpr hck
        simp [freqInsert, List.lookup, hb]
    · by_cases hck : c = k
      · simp [freqInsert, List.lookup, hkd, hck]
      · have hb : (c == k) = false := beq_eq_false_iff_ne.mpr hck
        simp [freqInsert, List.lookup, hkd, hb, ih]

theorem lookup_foldl_freq (c : Char) (v : List Char) (m : List (Char × Nat)) :
    (List.lookup c (v.foldl freqInsert m)).isSome = true ↔
      (List.lookup c m).isSome = true ∨ c ∈ v := by
  induction v generalizing m with
  | nil => simp
  | cons d t ih =>
    show (List.lookup c (t.foldl freqInsert (freqInsert m d))).isSome = true ↔ _
    rw [ih, lookup_freqInsert_isSome]
    simp [or_assoc, beq_iff_eq]

theorem lookup_character_frequency (c : Char) (v : List Char) :
    (List.lookup c (character_frequency v)).isSome = true ↔ c ∈ v := by
  rw [character_frequency, lookup_foldl_freq]
  simp [List.lookup]

theorem lookup_eraseKey (st : Store) (i : String) :
    List.lookup i (eraseKey st i) = none := by
  induction st with
  | nil => rfl
  | cons p t ih =>
    obtain ⟨k, r⟩ := p
    by_cases h : k = i
    · simpa [eraseKey, List.filter, h] using ih
    · have hb : (i == k) = false := beq_eq_false_iff_ne.mpr (Ne.symm h)
      have hb2 : (k != i) = true := by simp [bne, h]
      simpa [eraseKey, List.filter, hb2, List.lookup, hb] using ih

theorem lookup_append_or (i : String) (l1 l2 : Store) :
    List.lookup i (l1 ++ l2) = (List.lookup i l1).or (List.lookup i l2) := by
  induction l1 with
  | nil => simp [List.lookup]
  | cons p t ih =>
    obtain ⟨k, r⟩ := p
    by_cases h : i = k
    · simp [List.lookup, h, ih]
    · have hb : (i == k) = false := beq_eq_false_iff_ne.mpr h
      simp [List.lookup, hb, ih]

theorem stagePal_wc (ql : List Char) (f : FilterSpec) :
    (stagePal ql f).word_count = f.word_count := by
  unfold stagePal; split <;> rfl

theorem stageLonger_wc (ql : List Char) (f : FilterSpec) :
    (stageLonger ql f).word_count = f.word_count := by
  unfold stageLonger; split <;> rfl

theorem stageShorter_wc (ql : List Char) (f : FilterSpec) :
    (stageShorter ql f).word_count = f.word_count := by
  unfold stageShorter; split <;> rfl

theorem stageContains_wc (ql : List Char) (f : FilterSpec) :
    (stageContains ql f).word_count = f.word_count := by
  unfold stageContains; split <;> rfl

theorem stageVowel_wc (ql : List Char) (f : FilterSpec) :
    (stageVowel ql f).word_count = f.word_count := by
  unfold stageVowel; split <;> rfl

theorem stageShorter_min (ql : List Char) (f : FilterSpec) :
    (stageShorter ql f).min_length = f.min_length := by
  unfold stageShorter; split <;> rfl

theorem stageContains_min (ql : List Char) (f : FilterSpec) :
    (stageContains ql f).min_length = f.min_length := by
  unfold stageContains; split <;> rfl

theorem stageVowel_min (ql : List Char) (f : FilterSpec) :
    (stageVowel ql f).min_length = f.min_length := by
  unfold stageVowel; split <;> rfl

theorem stageContains_max (ql : List Char) (f : FilterSpec) :
    (stageContains ql f).max_length = f.max_length := by
  unfold stageContains; split <;> rfl

theorem stageVowel_max (ql : List Char) (f : FilterSpec) :
    (stageVowel ql f).max_length = f.max_length := by
  unfold stageVowel; split <;> rfl

theorem filterFilter (p q : FullRecord → Bool) (l : List FullRecord) :
    (l.filter p).filter q = l.filter (fun a => p a && q a) := by
  induction l with
  | nil => rfl
  | cons a t ih =>
    by_cases hp : p a
    · by_cases hq : q a <;> simp [List.filter, hp, hq, ih]
    · simp [List.filter, hp, ih]

/-! ### Claim theorems -/

/-- C1: for every string `v`, the `isPalindrome` field computed by the
canonical Analyzer equals the result of comparing the normalized form of
`v` — all characters that are not letters or digits removed, the rest
case-folded to lowercase — with its reverse; in particular the record for
"A man, a plan, a canal: Panama" reports a palindrome. -/
theorem C1_palindrome_normalized (hash : List Char → String) (v : List Char) :
    ((analyze_string hash v).is_palindrome = true ↔
      normalized_s v = (normalized_s v).reverse) ∧
    (analyze_string hash "A man, a plan, a canal: Panama".data).is_palindrome = true := by
  constructor
  · simp [analyze_string]
  · show (normalized_s "A man, a plan, a canal: Panama".data ==
      (normalized_s "A man, a plan, a canal: Panama".data).reverse) = true
    decide

/-- C10: a string none of whose characters is a letter or a digit (the
empty string, whitespace-only and punctuation-only strings included)
normalizes to the empty string, and the canonical Analyzer reports it as
a palindrome. -/
theorem C10_nonalnum_palindrome (hash : List Char → String) (v : List Char)
    (h : ∀ c ∈ v, pyIsAlnum c = false) :
    normalized_s v = [] ∧ (analyze_string hash v).is_palindrome = true := by
  have hf : v.filter pyIsAlnum = [] :=
    List.filter_eq_nil_iff.mpr (by intro a ha; simp [h a ha])
  have hn : normalized_s v = [] := by simp [normalized_s, hf]
  refine ⟨hn, ?_⟩
  simp [analyze_string, hn]

/-- Witness for C10 at the punctuation-only string " .,!". -/
theorem C10_witness :
    normalized_s " .,!".data = [] ∧
    (analyze_string (fun _ => "") " .,!".data).is_palindrome = true :=
  C10_nonalnum_palindrome (fun _ => "") " .,!".data (by decide)

/-- C2 is false as stated: two calls of `analyze` on the same value read
the clock independently, so records produced at distinct clock readings
differ (in `created_at`). -/
theorem C2_counterexample :
    analyze_string_main (fun _ => "") "2025-01-01T00:00:00Z" ['a'] ≠
      analyze_string_main (fun _ => "") "2025-01-01T00:00:01Z" ['a'] := by
  decide

/-- C2 amended: `analyze` is deterministic in `id`, `value` and every
property field; `created_at` equals the clock reading at the call, so the
two records are identical exactly when the clock readings coincide. -/
theorem C2_content_deterministic (hash : List Char → String)
    (t1 t2 : String) (v : List Char) :
    (analyze_string_main hash t1 v).id = (analyze_string_main hash t2 v).id ∧
    (analyze_string_main hash t1 v).value = (analyze_string_main hash t2 v).value ∧
    (analyze_string_main hash t1 v).properties =
      (analyze_string_main hash t2 v).properties ∧
    (analyze_string_main hash t1 v = analyze_string_main hash t2 v ↔ t1 = t2) := by
  refine ⟨rfl, rfl, rfl, ?_⟩
  constructor
  · intro h
    exact congrArg FullRecord.created_at h
  · intro h
    rw [h]

/-- C4: the `containsCharacter = c` filter keeps a record exactly when the
single-character string `c` occurs in its value (the code's substring
test), which is equivalent to `c` being a key of the record's character
frequency map; the comparison is case-sensitive (no case folding occurs
anywhere in the test). -/
theorem C4_contains_character (hash : List Char → String) (now : String)
    (v : List Char) (c : Char) (data : List FullRecord) :
    (subOf [c] v = true ↔ c ∈ v) ∧
    ((List.lookup c
        (analyze_string_main hash now v).properties.character_frequencies).isSome = true ↔
      c ∈ (analyze_string_main hash now v).value) ∧
    apply_filters data { contains_character := some c } =
      data.filter (fun r => subOf [c] r.value) :=
  ⟨subOf_singleton c v, lookup_character_frequency c v, rfl⟩

/-- C6: the filter engine returns the stable sub-sequence (input order
preserved) of exactly the records satisfying the conjunction of all set
predicates, an unset field imposing no constraint; the empty FilterSpec
returns the input unchanged. -/
theorem C6_filter_conjunction (data : List FullRecord) (f : FilterSpec) :
    apply_filters data f = data.filter (fun r => matchesSpec f r) ∧
    apply_filters data ({} : FilterSpec) = data ∧
    (apply_filters data f).Sublist data := by
  have hmain : apply_filters data f = data.filter (fun r => matchesSpec f r) := by
    obtain ⟨fp, fw, fmin, fmax, fc⟩ := f
    cases fp <;> cases fw <;> cases fmin <;> cases fmax <;> cases fc <;>
      simp [apply_filters, matchesSpec, filterFilter, Bool.and_assoc,
        Bool.and_comm, Bool.and_left_comm]
  refine ⟨hmain, rfl, ?_⟩
  rw [hmain]
  exact List.filter_sublist data

/-- C3: whenever the interpreter extracts `N` from a "longer than N"
phrase it sets `minLength = N + 1` (a strict lower bound), and from a
"shorter than N" phrase it sets `maxLength = N - 1` (a strict upper
bound); in particular "strings longer than 10" is interpreted as exactly
`minLength = 11`. -/
theorem C3_length_bounds (q : List Char) (n : Nat) :
    (searchKeyNum "longer than ".data (toLowerStr q) = some n →
      (parse_natural_language_query q).min_length = some ((n : Int) + 1)) ∧
    (searchKeyNum "shorter than ".data (toLowerStr q) = some n →
      (parse_natural_language_query q).max_length = some ((n : Int) - 1)) ∧
    parse_natural_language_query "strings longer than 10".data =
      { min_length := some 11 } := by
  refine ⟨?_, ?_, by decide⟩
  · intro h
    simp [parse_natural_language_query, stageVowel_min, stageContains_min,
      stageShorter_min, stageLonger, h]
  · intro h
    simp [parse_natural_language_query, stageVowel_max, stageContains_max,
      stageShorter, h]

/-- Witness for C3: both bound rules applied at concrete queries. -/
theorem C3_witness :
    (parse_natural_language_query "strings longer than 10".data).min_length =
      some 11 ∧
    (parse_natural_language_query "words shorter than 4".data).max_length =
      some 3 :=
  ⟨(C3_length_bounds "strings longer than 10".data 10).1 (by decide),
   (C3_length_bounds "words shorter than 4".data 4).2.1 (by decide)⟩

/-- C7 is false as stated: the interpreter's word-count chain tests only
"single word", not "one word", so the query "one word strings" leaves
`wordCount` unset although it contains "one word". -/
theorem C7_counterexample :
    subOf "one word".data (toLowerStr "one word strings".data) = true ∧
    (parse_natural_language_query "one word strings".data).word_count = none := by
  decide

/-- C7 amended: "single word" sets `wordCount = 1` ("one word" is not
recognized); otherwise "two word" or "2 word" sets `wordCount = 2`;
otherwise the first numeric "N word(s)" occurrence scanning left to right
sets `wordCount = N`; in particular "two word strings" is interpreted with
`wordCount = 2`. -/
theorem C7_word_count (q : List Char) :
    (parse_natural_language_query q).word_count =
      (if subOf "single word".data (toLowerStr q) then some 1
       else if subOf "two word".data (toLowerStr q) ||
           subOf "2 word".data (toLowerStr q) then some 2
       else searchNumWord (toLowerStr q)) ∧
    (parse_natural_language_query "two word strings".data).word_count = some 2 := by
  refine ⟨?_, by decide⟩
  simp only [parse_natural_language_query, stageVowel_wc, stageContains_wc,
    stageShorter_wc, stageLonger_wc]
  have hp : (stagePal (toLowerStr q) {}).word_count = none := stagePal_wc _ _
  unfold stageWC
  split_ifs with h1 h2
  · rfl
  · rfl
  · cases hsw : searchNumWord (toLowerStr q) with
    | some m => simp [hsw]
    | none => simp [hsw, hp]

/-- C8 is false as stated: the "first vowel" rule does not require the
word "contains" — the query "first vowel" alone already yields
`containsCharacter = 'a'`. -/
theorem C8_counterexample :
    (parse_natural_language_query "first vowel".data).contains_character =
      some 'a' ∧
    subOf "contains".data (toLowerStr "first vowel".data) = false := by
  decide

/-- C8 amended: whenever the text contains the phrase "first vowel" (the
word "contains" is not required), the interpreter sets
`containsCharacter = 'a'`, and this assignment runs after — hence takes
precedence over — the rule-6 "contain(s/ing) [the] [letter] X" extraction. -/
theorem C8_first_vowel (q : List Char)
    (h : subOf "first vowel".data (toLowerStr q) = true) :
    (parse_natural_language_query q).contains_character = some 'a' := by
  simp [parse_natural_language_query, stageVowel, h]

/-- Witness for C8 at a query where both phrasings appear: rule 6 would
extract 'f', but the first-vowel rule overrides with 'a'. -/
theorem C8_witness :
    (parse_natural_language_query "contains first vowel".data).contains_character =
      some 'a' :=
  C8_first_vowel "contains first vowel".data (by decide)

/-- C5: creating a value whose id is already present fails with
`AlreadyExists` and leaves the store unchanged; otherwise exactly one
record is inserted and returned, so a second create of the same value
fails with `AlreadyExists` and the store has grown by exactly one in
total. -/
theorem C5_create_dedup (hash : List Char → String) (now now2 : String)
    (st : Store) (v : List Char) :
    ((List.lookup (hash v) st).isSome = true →
      create_string hash now st v = (.error .alreadyExists, st)) ∧
    ((List.lookup (hash v) st).isSome = false →
      create_string hash now st v =
        (.ok (analyze_string_main hash now v),
         st ++ [(hash v, analyze_string_main hash now v)]) ∧
      (create_string hash now st v).2.length = st.length + 1) ∧
    (∀ r st1, create_string hash now st v = (.ok r, st1) →
      (create_string hash now2 st1 v).1 = .error .alreadyExists ∧
      (create_string hash now2 st1 v).2 = st1 ∧
      st1.length = st.length + 1) := by
  refine ⟨?_, ?_, ?_⟩
  · intro h
    simp [create_string, h]
  · intro h
    constructor
    · simp [create_string, h]
    · simp [create_string, h]
  · intro r st1 hok
    have h2 : (List.lookup (hash v) st).isSome = false := by
      by_contra hco
      have h : (List.lookup (hash v) st).isSome = true := by
        simpa using hco
      simp [create_string, h] at hok
    have he : create_string hash now st v =
        (.ok (analyze_string_main hash now v),
         st ++ [(hash v, analyze_string_main hash now v)]) := by
      simp [create_string, h2]
    have heq := he.symm.trans hok
    have hst : st ++ [(hash v, analyze_string_main hash now v)] = st1 :=
      congrArg Prod.snd heq
    have hnone : List.lookup (hash v) st = none := by
      cases hl : List.lookup (hash v) st with
      | none => rfl
      | some x => rw [hl] at h2; simp at h2
    have hlook : List.lookup (hash v) st1 =
        some (analyze_string_main hash now v) := by
      rw [← hst, lookup_append_or]
      simp [hnone, List.lookup]
    refine ⟨?_, ?_, ?_⟩
    · simp [create_string, hlook]
    · simp [create_string, hlook]
    · rw [← hst]
      simp

/-- Witness for C5: create on the empty store succeeds, a second create of
the same value answers `AlreadyExists`, the store has grown by exactly
one, and create on a store already holding the id answers `AlreadyExists`
leaving the store unchanged. -/
theorem C5_witness :
    (create_string (fun _ => "h") "t0" ([] : Store) ['a']).1 =
      .ok (analyze_string_main (fun _ => "h") "t0" ['a']) ∧
    (create_string (fun _ => "h") "t1"
        (create_string (fun _ => "h") "t0" ([] : Store) ['a']).2 ['a']).1 =
      .error .alreadyExists ∧
    (create_string (fun _ => "h") "t0" ([] : Store) ['a']).2.length = 0 + 1 ∧
    create_string (fun _ => "h") "t1"
        [("h", analyze_string_main (fun _ => "h") "t0" ['a'])] ['a'] =
      (.error .alreadyExists,
       [("h", analyze_string_main (fun _ => "h") "t0" ['a'])]) := by
  have h := C5_create_dedup (fun _ => "h") "t0" "t1" ([] : Store) ['a']
  have h2 := h.2.1 (by decide)
  have h3 := h.2.2 (analyze_string_main (fun _ => "h") "t0" ['a'])
      (([] : Store) ++
        [((fun _ => "h") ['a'], analyze_string_main (fun _ => "h") "t0" ['a'])])
      h2.1
  refine ⟨by rw [h2.1], ?_, h2.2, ?_⟩
  · rw [h2.1]
    exact h3.1
  · exact (C5_create_dedup (fun _ => "h") "t0" "t1"
      [("h", analyze_string_main (fun _ => "h") "t0" ['a'])] ['a']).1 (by decide)

/-- C9: deleting a present id succeeds and removes the record, after which
both a get and a second delete of that id fail with `NotFound`; deleting
an absent id fails with `NotFound` and leaves the store unchanged. -/
theorem C9_delete_semantics (st : Store) (i : String) :
    ((List.lookup i st).isSome = true →
      (delete_by_id st i).1 = .ok () ∧
      List.lookup i (delete_by_id st i).2 = none ∧
      get_by_id (delete_by_id st i).2 i = .error .notFound ∧
      delete_by_id (delete_by_id st i).2 i =
        (.error .notFound, (delete_by_id st i).2)) ∧
    ((List.lookup i st).isSome = false →
      delete_by_id st i = (.error .notFound, st)) := by
  constructor
  · intro h
    have h2 : (delete_by_id st i).2 = eraseKey st i := by
      simp [delete_by_id, h]
    refine ⟨by simp [delete_by_id, h], ?_, ?_, ?_⟩
    · rw [h2]
      exact lookup_eraseKey st i
    · rw [h2]
      simp [get_by_id, lookup_eraseKey]
    · rw [h2]
      simp [delete_by_id, lookup_eraseKey]
  · intro h
    simp [delete_by_id, h]

/-- Witness for C9: delete of a present id succeeds and the following get
answers `NotFound`; delete on the empty store answers `NotFound` and
leaves it unchanged. -/
theorem C9_witness :
    (delete_by_id [("x", analyze_string_main (fun _ => "x") "t" ['a'])] "x").1 =
      .ok () ∧
    get_by_id
        (delete_by_id [("x", analyze_string_main (fun _ => "x") "t" ['a'])] "x").2
        "x" = .error .notFound ∧
    delete_by_id ([] : Store) "x" = (.error .notFound, []) := by
  have h := C9_delete_semantics
      [("x", analyze_string_main (fun _ => "x") "t" ['a'])] "x"
  have hp := h.1 (by decide)
  exact ⟨hp.1, hp.2.2.1, (C9_delete_semantics ([] : Store) "x").2 (by decide)⟩

/-! ### Executable sanity checks -/

example : normalized_s "A man, a plan, a canal: Panama".data =
    "amanaplanacanalpanama".data := by decide

example : (analyze_string (fun _ => "") "A man, a plan, a canal: Panama".data).is_palindrome = true := by decide

example : is_palindrome_main "A man, a plan, a canal: Panama".data = false := by decide

example : count_words "  two words ".data = 2 := by decide

example : parse_natural_language_query "strings longer than 10".data =
    { min_length := some 11 } := by decide

example : parse_natural_language_query "two word strings".data =
    { word_count := some 2 } := by decide

example : parse_natural_language_query "find all palindromic strings".data =
    { is_palindrome := some true } := by decide

example : parse_natural_language_query "asdfqwer nothing matches".data = {} := by decide

example : (parse_natural_language_query "strings containing the letter z".data).contains_character = some 'z' := by decide

example : (parse_natural_language_query "strings that contain the letter".data).contains_character = some 'l' := by decide

example : (parse_natural_language_query "one word strings".data).word_count = none := by decide

example : (parse_natural_language_query "first vowel".data).contains_character = some 'a' := by decide

example : (parse_natural_language_query "shorter than 0".data).max_length = some (-1) := by decide
